import Mathlib

/-!
# Map stamps (d2core/d2map/d2mapstamp/stamp.go)

A shallow embedding of `LoadStamp`, `Stamp.Tile`, `Stamp.TileData`, `Stamp.Entities` and
`convertPaths`, followed by the properties established about them.

Conventions of the embedding:

* Go `int`/`int32` values are integers (`Int`). The coordinate arithmetic of `Entities`
  and `convertPaths` is Go `int` arithmetic: `intAdd` and `intMul` wrap at 64 bits (the
  width of `int` on 64-bit targets).
* A Go slice is a `List`; the nil slice is `[]` (a slice that was only ever appended to is
  nil exactly when nothing was appended).
* A Go pointer result that may be nil is an `Option`; dereferencing nil, indexing out of
  range and `panic(...)` all end the call with a `Failure`.
* The package-level dictionaries, the asset loader and the two decoders live in other
  packages; they are the fields of `Env`.
* `rand.Float64()` is the explicit argument `u`; `float64` values are rationals and the
  product `float64(n-1) * u` is taken exactly.
-/

namespace D2MapStamp

/-! ## Data model -/

/-- One waypoint, `d2common.Path`. -/
structure Path where
  X : Int
  Y : Int
  Action : Int
deriving DecidableEq, Repr

/-- An object placement of a layout, `d2ds1.Object` (field `Type` is spelled `Typ`). -/
structure Object where
  Typ : Int
  Id : Int
  X : Int
  Y : Int
  Paths : List Path
deriving DecidableEq, Repr

/-- A tile of a tile asset, `d2dt1.Tile`: the three key fields read by `TileData`; `Data`
stands for all remaining fields of the record (two tiles with one key may differ there). -/
structure Tile where
  Style : Int
  Sequence : Int
  Typ : Int
  Data : Nat
deriving DecidableEq, Repr

/-- A decoded tile asset, `d2dt1.DT1`. -/
structure DT1 where
  Tiles : List Tile
deriving DecidableEq, Repr

/-- A layout cell, `d2ds1.TileRecord`: the region tag and (as `Data`) everything else. -/
structure TileRecord where
  Data : Nat
  RegionType : Int
deriving DecidableEq, Repr

/-- A decoded layout, `d2ds1.DS1`; `Tiles` is indexed `[y][x]`. -/
structure DS1 where
  Tiles : List (List TileRecord)
  Objects : List Object
  Act : Int
  Width : Int
  Height : Int
deriving DecidableEq, Repr

/-- Record `d2datadict.LevelTypeRecord`: the tile-asset file list (other columns in `Data`). -/
structure LevelTypeRecord where
  Files : List String
  Data : Nat
deriving DecidableEq, Repr

/-- Record `d2datadict.LevelPresetRecord`: the layout file list (other columns in `Data`). -/
structure LevelPresetRecord where
  Files : List String
  Data : Nat
deriving DecidableEq, Repr

/-- Record `d2datadict.MonStatsRecord`, identified by a tag. -/
structure MonStatsRecord where
  Tag : Nat
deriving DecidableEq, Repr

/-- Record `d2datadict.ObjectLookupRecord`: only `ObjectsTxtId` is read. -/
structure ObjectLookupRecord where
  ObjectsTxtId : Int
deriving DecidableEq, Repr

/-- Record `d2datadict.ObjectRecord`, identified by a tag. -/
structure ObjectRecord where
  Tag : Nat
deriving DecidableEq, Repr

/-- A constructed map entity, represented by the call that built it:
`npc x y monstat direction paths` is `d2mapentity.CreateNPC(x, y, monstat, direction)` followed
by `SetPaths(paths)`; `object x y record palette` is the entity returned by
`d2object.CreateObject(x, y, record, palette)`. -/
inductive MapEntity where
  | npc (x y : Int) (monstat : MonStatsRecord) (direction : Int) (paths : List Path)
  | object (x y : Int) (record : ObjectRecord) (palette : String)
deriving DecidableEq, Repr

/-- The ways a call can end without a result. -/
inductive Failure where
  /-- Ends with `panic(err)` for an error of `d2asset.LoadFile`. -/
  | loadError (err : String)
  /-- Ends with `panic("no level files to pick from")`. -/
  | noLevelFiles
  /-- A nil pointer was dereferenced. -/
  | nilDereference
  /-- A slice was indexed out of range. -/
  | indexOutOfRange
  /-- Ends with `panic(err)` for an error of `d2object.CreateObject`. -/
  | createObjectError (err : String)
deriving DecidableEq, Repr

/-- Everything `stamp.go` reads from other packages. A decoder returns a pointer and an
error, either of which may be nil. `CreateObjectErr` is the error (if any) that
`d2object.CreateObject` reports for the given arguments. -/
structure Env where
  LevelTypes : Int → LevelTypeRecord
  LevelPresets : Int → LevelPresetRecord
  LoadFile : String → Except String (List Nat)
  LoadDT1 : List Nat → Option DT1 × Option String
  LoadDS1 : List Nat → Option DS1 × Option String
  MonPresets : Int → Int → String
  MonStats : String → Option MonStatsRecord
  LookupObject : Int → Int → Int → Option ObjectLookupRecord
  Objects : Int → Option ObjectRecord
  CreateObjectErr : Int → Int → ObjectRecord → String → Option String
  PaletteUnits : String

/-- Modelled from the spec: the kind discriminant of a creature placement
(`d2enum.ObjectTypeCharacter`); the enumeration is declared outside this source file, its
constants are distinct. -/
def ObjectTypeCharacter : Int := 1

/-- Modelled from the spec: the kind discriminant of an item placement
(`d2enum.ObjectTypeItem`); the enumeration is declared outside this source file, its
constants are distinct. -/
def ObjectTypeItem : Int := 2

/-- The stamp, `Stamp`. After a successful load `ds1` is not nil. -/
structure Stamp where
  regionPath : String
  levelType : LevelTypeRecord
  levelPreset : LevelPresetRecord
  tiles : List Tile
  ds1 : DS1
deriving DecidableEq, Repr

/-! ## LoadStamp -/

/-- Slice indexing `xs[i]` with a Go `int` index; `none` is the out-of-range panic. -/
def index {α : Type} (xs : List α) (i : Int) : Option α :=
  if i < 0 then none else xs.get? i.toNat

/-- The guard of both file loops:
`len(f) != 0 && f != "" && f != "0"`. -/
def usableFile (f : String) : Bool :=
  f.length != 0 && f != "" && f != "0"

/-- The loop of lines 36-47: appends the tiles of every usable tile file to `tiles`. -/
def loadTiles (env : Env) : List String → List Tile → Except Failure (List Tile)
  | [], tiles => .ok tiles
  | levelTypeDt1 :: rest, tiles =>
    if usableFile levelTypeDt1 then
      match env.LoadFile ("/data/global/tiles/" ++ levelTypeDt1) with
      | .error err => .error (.loadError err)
      | .ok fileData =>
        -- dt1, _ := d2dt1.LoadDT1(fileData): the error is dropped
        match (env.LoadDT1 fileData).1 with
        | none => .error .nilDereference
        | some dt1 => loadTiles env rest (tiles ++ dt1.Tiles)
    else loadTiles env rest tiles

/-- The loop of lines 51-55: appends every usable file record to `levelFilesToPick`. -/
def pickFiles : List String → List String → List String
  | [], levelFilesToPick => levelFilesToPick
  | fileRecord :: rest, levelFilesToPick =>
    if usableFile fileRecord then pickFiles rest (levelFilesToPick ++ [fileRecord])
    else pickFiles rest levelFilesToPick

/-- Go's `math.Round`: nearest integer, halves away from zero. -/
def mathRound (x : ℚ) : Int :=
  if x < 0 then -⌊-x + 1 / 2⌋ else ⌊x + 1 / 2⌋

/-- Lines 57-60: the index used for a candidate list of length `n`, random draw `u` and
requested `fileIndex`. -/
def levelIndex (n : Nat) (u : ℚ) (fileIndex : Int) : Int :=
  let levelIndex := mathRound ((((n : Int) - 1 : Int) : ℚ) * u)
  if fileIndex ≥ 0 ∧ fileIndex < (n : Int) then fileIndex else levelIndex

/-- The loops of lines 76-80: every cell of every row gets `RegionType = levelType`. -/
def setRegionRow (levelType : Int) : List TileRecord → List TileRecord
  | [] => []
  | t :: row => { t with RegionType := levelType } :: setRegionRow levelType row

/-- The outer loop of lines 76-80. -/
def setRegionType (levelType : Int) : List (List TileRecord) → List (List TileRecord)
  | [] => []
  | row :: rows => setRegionRow levelType row :: setRegionType levelType rows

/-- Function `LoadStamp(levelType, levelPreset, fileIndex)`, with the random draw `u`. -/
def LoadStamp (env : Env) (levelType levelPreset fileIndex : Int) (u : ℚ) :
    Except Failure Stamp :=
  let lt := env.LevelTypes levelType
  let lp := env.LevelPresets levelPreset
  match loadTiles env lt.Files [] with
  | .error e => .error e
  | .ok tiles =>
    let levelFilesToPick := pickFiles lp.Files []
    let levelIndex := levelIndex levelFilesToPick.length u fileIndex
    if levelFilesToPick = [] then .error .noLevelFiles
    else
      match index levelFilesToPick levelIndex with
      | none => .error .indexOutOfRange
      | some regionPath =>
        match env.LoadFile ("/data/global/tiles/" ++ regionPath) with
        | .error err => .error (.loadError err)
        | .ok fileData =>
          -- stamp.ds1, _ = d2ds1.LoadDS1(fileData): the error is dropped
          match (env.LoadDS1 fileData).1 with
          | none => .error .nilDereference
          | some ds1 =>
            .ok { regionPath := regionPath, levelType := lt, levelPreset := lp, tiles := tiles,
                  ds1 := { ds1 with Tiles := setRegionType levelType ds1.Tiles } }

/-! ## Queries -/

/-- Method `RegionPath()`. -/
def Stamp.RegionPath (mr : Stamp) : String := mr.regionPath

/-- Method `Tile(x, y)`: the cell `ds1.Tiles[y][x]`. -/
def Stamp.Tile (mr : Stamp) (x y : Int) : Except Failure TileRecord :=
  match index mr.ds1.Tiles y with
  | none => .error .indexOutOfRange
  | some row =>
    match index row x with
    | none => .error .indexOutOfRange
    | some t => .ok t

/-- The loop of `TileData` over a tile collection. -/
def tileDataIn (style sequence tileType : Int) : List Tile → Option Tile
  | [] => none
  | tile :: rest =>
    if tile.Style = style ∧ tile.Sequence = sequence ∧ tile.Typ = tileType then some tile
    else tileDataIn style sequence tileType rest

/-- Method `TileData(style, sequence, tileType)`; `none` is the nil result. The
conversion `int32(tileType)` of the small enumeration value keeps the value. -/
def Stamp.TileData (mr : Stamp) (style sequence tileType : Int) : Option D2MapStamp.Tile :=
  tileDataIn style sequence tileType mr.tiles

/-! ## Entities -/

/-- The value a Go `int` holds after an arithmetic result `z`: two's complement wrap to
`[-2^63, 2^63)`, with `2^63 = 9223372036854775808` and `2^64 = 18446744073709551616`. -/
def wrapInt (z : Int) : Int :=
  (z + 9223372036854775808) % 18446744073709551616 - 9223372036854775808

/-- Go `a + b` on `int`. -/
def intAdd (a b : Int) : Int := wrapInt (a + b)

/-- Go `a * b` on `int`. -/
def intMul (a b : Int) : Int := wrapInt (a * b)

/-- Function `convertPaths`. -/
def convertPaths (tileOffsetX tileOffsetY : Int) : List Path → List Path
  | [] => []
  | p :: paths =>
    { Action := p.Action, X := intAdd p.X (intMul tileOffsetX 5),
      Y := intAdd p.Y (intMul tileOffsetY 5) } ::
      convertPaths tileOffsetX tileOffsetY paths

/-- Call `d2object.CreateObject(x, y, record, palette)`. -/
def CreateObject (env : Env) (x y : Int) (record : ObjectRecord) (palette : String) :
    Except String MapEntity :=
  match env.CreateObjectErr x y record palette with
  | some err => .error err
  | none => .ok (.object x y record palette)

/-- One pass of the loop body of `Entities` (lines 126-159) for `object`: the entities it
appends, or the failure it ends with. -/
def entitiesOfObject (env : Env) (act tileOffsetX tileOffsetY : Int) (object : Object) :
    Except Failure (List MapEntity) :=
  let appended : List MapEntity :=
    if object.Typ = ObjectTypeCharacter then
      match env.MonStats (env.MonPresets act object.Id) with
      | some monstat =>
        [.npc (intAdd (intMul tileOffsetX 5) object.X)
          (intAdd (intMul tileOffsetY 5) object.Y) monstat 0
          (convertPaths tileOffsetX tileOffsetY object.Paths)]
      | none => []
    else []
  if object.Typ = ObjectTypeItem then
    match env.LookupObject act object.Typ object.Id with
    | none => .ok appended
    | some lookup =>
      match env.Objects lookup.ObjectsTxtId with
      | none => .ok appended
      | some objectRecord =>
        match CreateObject env (intAdd (intMul tileOffsetX 5) object.X)
            (intAdd (intMul tileOffsetY 5) object.Y) objectRecord env.PaletteUnits with
        | .error err => .error (.createObjectError err)
        | .ok entity => .ok (appended ++ [entity])
  else .ok appended

/-- The loop of `Entities` over the remaining objects, `entities` being the slice built
so far. -/
def entitiesLoop (env : Env) (act tileOffsetX tileOffsetY : Int) :
    List Object → List MapEntity → Except Failure (List MapEntity)
  | [], entities => .ok entities
  | object :: rest, entities =>
    match entitiesOfObject env act tileOffsetX tileOffsetY object with
    | .error e => .error e
    | .ok appended => entitiesLoop env act tileOffsetX tileOffsetY rest (entities ++ appended)

/-- Method `Entities(tileOffsetX, tileOffsetY)`. -/
def Stamp.Entities (env : Env) (mr : Stamp) (tileOffsetX tileOffsetY : Int) :
    Except Failure (List MapEntity) :=
  entitiesLoop env mr.ds1.Act tileOffsetX tileOffsetY mr.ds1.Objects []

/-! ## Vocabulary of the statements and example inputs -/

/-- The candidate list in the words of the specification: the file entries of the preset
with every `""` and `"0"` entry removed, order preserved. -/
def candidateFiles (files : List String) : List String :=
  files.filter (fun f => f ≠ "" ∧ f ≠ "0")

/-- The tiles a usable tile file contributes once it loads and decodes. -/
def decodedTiles (env : Env) (file : String) : List Tile :=
  match env.LoadFile ("/data/global/tiles/" ++ file) with
  | .error _ => []
  | .ok fileData =>
    match (env.LoadDT1 fileData).1 with
    | none => []
    | some dt1 => dt1.Tiles

/-- The key comparison of `TileData`. -/
def keyMatches (style sequence tileType : Int) (tile : Tile) : Prop :=
  tile.Style = style ∧ tile.Sequence = sequence ∧ tile.Typ = tileType

/-- The values of a Go `int`: `-2^63 ≤ z < 2^63`. -/
def inIntRange (z : Int) : Prop :=
  -9223372036854775808 ≤ z ∧ z < 9223372036854775808

/-- The stamp `mr` with the object list of its layout replaced by `objects`. -/
def Stamp.withObjects (mr : Stamp) (objects : List Object) : Stamp :=
  { mr with ds1 := { mr.ds1 with Objects := objects } }

/-- A placement that misses its definition: a creature whose preset has no monster
statistics, or an item without a lookup entry or without an object record. -/
def lookupMiss (env : Env) (act : Int) (object : Object) : Prop :=
  (object.Typ = ObjectTypeCharacter ∧ env.MonStats (env.MonPresets act object.Id) = none) ∨
  (object.Typ = ObjectTypeItem ∧
    (env.LookupObject act object.Typ object.Id = none ∨
      ∃ lookup, env.LookupObject act object.Typ object.Id = some lookup ∧
        env.Objects lookup.ObjectsTxtId = none))

/-- An example layout: two ragged rows whose cells carry region types 9, 8 and 7, a
creature at (1, 1) with one waypoint, an item at (2, 0) and a placement of another kind. -/
def exampleDS1 : DS1 where
  Tiles := [[⟨0, 9⟩, ⟨1, 8⟩], [⟨2, 7⟩]]
  Objects := [⟨1, 5, 1, 1, [⟨3, 4, 7⟩]⟩, ⟨2, 6, 2, 0, []⟩, ⟨0, 0, 0, 0, []⟩]
  Act := 1
  Width := 3
  Height := 2

/-- An example environment: preset files `["a.ds1", "", "0", "b.ds1"]`, one tile file,
every asset loads and decodes, creature preset 5 and item 6 have definitions. -/
def exampleEnv : Env where
  LevelTypes := fun _ => { Files := ["", "floor.dt1", "0"], Data := 0 }
  LevelPresets := fun _ => { Files := ["a.ds1", "", "0", "b.ds1"], Data := 0 }
  LoadFile := fun path => .ok [path.length]
  LoadDT1 := fun _ => (some { Tiles := [⟨1, 2, 3, 0⟩, ⟨1, 2, 3, 1⟩] }, none)
  LoadDS1 := fun _ => (some exampleDS1, none)
  MonPresets := fun _ id => if id = 5 then "fallen" else "place_"
  MonStats := fun key => if key = "fallen" then some ⟨1⟩ else none
  LookupObject := fun _ _ id => if id = 6 then some ⟨60⟩ else none
  Objects := fun id => if id = 60 then some ⟨2⟩ else none
  CreateObjectErr := fun _ _ _ _ => none
  PaletteUnits := "units"

/-- The example environment with a preset that lists no usable layout file. -/
def emptyPresetEnv : Env :=
  { exampleEnv with LevelPresets := fun _ => { Files := ["", "0", ""], Data := 0 } }

/-- The environment of `emptyPresetEnv` in which no asset file can be loaded. -/
def missingFilesEnv : Env :=
  { emptyPresetEnv with LoadFile := fun _ => .error "file not found" }

/-- The example environment with decoders that hand back a decoded value together with
an error. -/
def decodeErrorEnv : Env :=
  { exampleEnv with
    LoadDT1 := fun _ => (some { Tiles := [⟨1, 2, 3, 0⟩] }, some "dt1: unexpected end of data")
    LoadDS1 := fun _ => (some exampleDS1, some "ds1: unexpected end of data") }

/-- The stamp `LoadStamp` builds in the example environment for level type 7 and file
index 1. -/
def exampleStamp : Stamp where
  regionPath := "b.ds1"
  levelType := { Files := ["", "floor.dt1", "0"], Data := 0 }
  levelPreset := { Files := ["a.ds1", "", "0", "b.ds1"], Data := 0 }
  tiles := [⟨1, 2, 3, 0⟩, ⟨1, 2, 3, 1⟩]
  ds1 := { exampleDS1 with Tiles := [[⟨0, 7⟩, ⟨1, 7⟩], [⟨2, 7⟩]] }

/-! ## Auxiliary lemmas -/

theorem usableFile_iff (f : String) : usableFile f = true ↔ f ≠ "" ∧ f ≠ "0" := by
  unfold usableFile
  simp only [Bool.and_eq_true, bne_iff_ne, ne_eq]
  constructor
  · rintro ⟨⟨_, h2⟩, h3⟩; exact ⟨h2, h3⟩
  · rintro ⟨h2, h3⟩
    refine ⟨⟨?_, h2⟩, h3⟩
    intro h
    apply h2
    have : f.data = [] := List.length_eq_zero.mp h
    cases f
    simp_all

theorem pickFiles_eq (files acc : List String) :
    pickFiles files acc = acc ++ candidateFiles files := by
  induction files generalizing acc with
  | nil => simp [pickFiles, candidateFiles]
  | cons f rest ih =>
    unfold pickFiles
    by_cases h : usableFile f = true
    · have h2 := (usableFile_iff f).mp h
      simp [h, ih, candidateFiles, List.filter_cons, h2]
    · have h2 : ¬ (f ≠ "" ∧ f ≠ "0") := fun hh => h ((usableFile_iff f).mpr hh)
      simp only [h, ih, candidateFiles, List.filter_cons]
      simp [h2]

theorem LoadStamp_ok_iff (env : Env) (levelType levelPreset fileIndex : Int) (u : ℚ)
    (stamp : Stamp) :
    LoadStamp env levelType levelPreset fileIndex u = .ok stamp ↔
      ∃ tiles regionPath fileData ds1,
        loadTiles env (env.LevelTypes levelType).Files [] = .ok tiles ∧
        candidateFiles (env.LevelPresets levelPreset).Files ≠ [] ∧
        index (candidateFiles (env.LevelPresets levelPreset).Files)
          (levelIndex (candidateFiles (env.LevelPresets levelPreset).Files).length u
            fileIndex) = some regionPath ∧
        env.LoadFile ("/data/global/tiles/" ++ regionPath) = .ok fileData ∧
        (env.LoadDS1 fileData).1 = some ds1 ∧
        stamp = { regionPath := regionPath, levelType := env.LevelTypes levelType,
                  levelPreset := env.LevelPresets levelPreset, tiles := tiles,
                  ds1 := { ds1 with Tiles := setRegionType levelType ds1.Tiles } } := by
  unfold LoadStamp
  simp only [pickFiles_eq, List.nil_append]
  constructor
  · intro h
    split at h
    · simp at h
    · rename_i tiles ht
      split at h
      · simp at h
      · rename_i hne
        split at h
        · simp at h
        · rename_i path hp
          split at h
          · simp at h
          · rename_i fileData hf
            split at h
            · simp at h
            · rename_i ds1 hd
              refine ⟨tiles, path, fileData, ds1, ht, hne, hp, hf, hd, ?_⟩
              simp only [Except.ok.injEq] at h
              exact h.symm
  · rintro ⟨tiles, path, fileData, ds1, ht, hne, hp, hf, hd, rfl⟩
    simp only [ht, hne, hp, hf, hd, if_false]

theorem levelIndex_explicit (n : Nat) (u : ℚ) (i : Int) (h0 : 0 ≤ i) (h1 : i < (n : Int)) :
    levelIndex n u i = i := by
  unfold levelIndex
  simp [h0, h1]

theorem levelIndex_drawn (n : Nat) (u : ℚ) (i : Int) (h : ¬ (0 ≤ i ∧ i < (n : Int))) :
    levelIndex n u i = mathRound (((n : ℚ) - 1) * u) := by
  unfold levelIndex
  simp only [ge_iff_le, h, if_false]
  push_cast
  rfl

theorem mathRound_of_nonneg (x : ℚ) (hx : 0 ≤ x) : mathRound x = ⌊x + 1 / 2⌋ := by
  unfold mathRound
  simp [not_lt.mpr hx]

theorem mathRound_eq_iff (x : ℚ) (hx : 0 ≤ x) (k : Int) :
    mathRound x = k ↔ (k : ℚ) - 1 / 2 ≤ x ∧ x < (k : ℚ) + 1 / 2 := by
  rw [mathRound_of_nonneg x hx, Int.floor_eq_iff]
  constructor
  · rintro ⟨h1, h2⟩; constructor <;> linarith
  · rintro ⟨h1, h2⟩; constructor <;> linarith

theorem mathRound_draw_bounds (n : Nat) (hn : 1 ≤ n) (u : ℚ) (hu0 : 0 ≤ u) (hu1 : u < 1) :
    0 ≤ mathRound (((n : ℚ) - 1) * u) ∧ mathRound (((n : ℚ) - 1) * u) < (n : Int) := by
  have hn1 : (0 : ℚ) ≤ (n : ℚ) - 1 := by
    have : (1 : ℚ) ≤ (n : ℚ) := by exact_mod_cast hn
    linarith
  have hx0 : 0 ≤ ((n : ℚ) - 1) * u := mul_nonneg hn1 hu0
  have hx1 : ((n : ℚ) - 1) * u ≤ (n : ℚ) - 1 := by
    calc ((n : ℚ) - 1) * u ≤ ((n : ℚ) - 1) * 1 := mul_le_mul_of_nonneg_left hu1.le hn1
      _ = (n : ℚ) - 1 := mul_one _
  rw [mathRound_of_nonneg _ hx0]
  constructor
  · apply Int.floor_nonneg.mpr; linarith
  · rw [Int.floor_lt]
    push_cast
    linarith

theorem levelIndex_bounds (n : Nat) (hn : 1 ≤ n) (u : ℚ) (hu0 : 0 ≤ u) (hu1 : u < 1)
    (fileIndex : Int) :
    0 ≤ levelIndex n u fileIndex ∧ levelIndex n u fileIndex < (n : Int) := by
  by_cases h : 0 ≤ fileIndex ∧ fileIndex < (n : Int)
  · rw [levelIndex_explicit n u fileIndex h.1 h.2]; exact h
  · rw [levelIndex_drawn n u fileIndex h]; exact mathRound_draw_bounds n hn u hu0 hu1

theorem index_of_bounds {α : Type} (xs : List α) (i : Int) (h0 : 0 ≤ i)
    (h1 : i < (xs.length : Int)) : ∃ x, index xs i = some x ∧ x ∈ xs := by
  have hlt : i.toNat < xs.length := by omega
  refine ⟨xs.get ⟨i.toNat, hlt⟩, ?_, List.get_mem _ _ _⟩
  unfold index
  simp [not_lt.mpr h0, List.get?_eq_get hlt]

theorem index_mem {α : Type} (xs : List α) (i : Int) (x : α) (h : index xs i = some x) :
    x ∈ xs := by
  unfold index at h
  split at h
  · simp at h
  · exact List.get?_mem h

theorem loadTiles_ne_indexOutOfRange (env : Env) (files : List String) (tiles : List Tile) :
    loadTiles env files tiles ≠ .error .indexOutOfRange := by
  induction files generalizing tiles with
  | nil => simp [loadTiles]
  | cons f rest ih =>
    unfold loadTiles
    split
    · split
      · simp
      · split
        · simp
        · exact ih _
    · exact ih _

theorem LoadStamp_eq_of_levelIndex_eq (env : Env) (levelType levelPreset i j : Int)
    (u v : ℚ)
    (h : levelIndex (candidateFiles (env.LevelPresets levelPreset).Files).length u i =
      levelIndex (candidateFiles (env.LevelPresets levelPreset).Files).length v j) :
    LoadStamp env levelType levelPreset i u = LoadStamp env levelType levelPreset j v := by
  unfold LoadStamp
  simp only [pickFiles_eq, List.nil_append, h]

/-! ## Variant selection -/

/-- Claim C1. With `candidates` the file entries of the preset without the `""` and `"0"`
entries, and an explicit `i` with `0 ≤ i < len(candidates)`: every stamp `LoadStamp`
returns has `RegionPath() = candidates[i]`; the outcome of the load does not depend on the
random draw; and the load does return a stamp with that path once the tile files, the
chosen layout file and its decoding are available. -/
theorem LoadStamp_explicit_index (env : Env) (levelType levelPreset i : Int) (u : ℚ)
    (h0 : 0 ≤ i)
    (h1 : i < ((candidateFiles (env.LevelPresets levelPreset).Files).length : Int)) :
    (∀ stamp, LoadStamp env levelType levelPreset i u = .ok stamp →
      index (candidateFiles (env.LevelPresets levelPreset).Files) i =
        some stamp.RegionPath) ∧
    (∀ v : ℚ, LoadStamp env levelType levelPreset i v =
      LoadStamp env levelType levelPreset i u) ∧
    (∀ tiles path fileData ds1,
      loadTiles env (env.LevelTypes levelType).Files [] = .ok tiles →
      index (candidateFiles (env.LevelPresets levelPreset).Files) i = some path →
      env.LoadFile ("/data/global/tiles/" ++ path) = .ok fileData →
      (env.LoadDS1 fileData).1 = some ds1 →
      ∃ stamp, LoadStamp env levelType levelPreset i u = .ok stamp ∧
        stamp.RegionPath = path) := by
  have hidx := levelIndex_explicit _ u i h0 h1
  refine ⟨?_, ?_, ?_⟩
  · intro stamp hs
    obtain ⟨tiles, path, fileData, ds1, _, _, hp, _, _, rfl⟩ :=
      (LoadStamp_ok_iff env levelType levelPreset i u stamp).mp hs
    rw [hidx] at hp
    exact hp
  · intro v
    apply LoadStamp_eq_of_levelIndex_eq
    rw [hidx, levelIndex_explicit _ v i h0 h1]
  · intro tiles path fileData ds1 ht hp hf hd
    refine ⟨_, (LoadStamp_ok_iff env levelType levelPreset i u _).mpr
      ⟨tiles, path, fileData, ds1, ht, ?_, ?_, hf, hd, rfl⟩, rfl⟩
    · intro hnil
      rw [hnil] at h1
      simp at h1
      omega
    · rw [hidx]; exact hp

/-- Claim C1 at the example of the specification: the candidates are `["a.ds1", "b.ds1"]`
and the explicit index 1 gives `RegionPath() = "b.ds1"`. -/
theorem LoadStamp_explicit_index_witness :
    candidateFiles (exampleEnv.LevelPresets 0).Files = ["a.ds1", "b.ds1"] ∧
    ∃ stamp, LoadStamp exampleEnv 7 0 1 (1 / 3) = .ok stamp ∧ stamp.RegionPath = "b.ds1" :=
  ⟨by decide,
    (LoadStamp_explicit_index exampleEnv 7 0 1 (1 / 3) (by decide) (by decide)).2.2
      [⟨1, 2, 3, 0⟩, ⟨1, 2, 3, 1⟩] "b.ds1" [24] exampleDS1 rfl rfl rfl rfl⟩

/-- Claim C3, as amended. For a preset whose file entries are all `""` or `"0"`, whatever
the file index and the random draw, `LoadStamp` never returns a stamp; it ends with
`panic("no level files to pick from")` when the tile loop of lines 36-47 has run through,
and with the failure of that loop when a tile file did not load or decode. -/
theorem LoadStamp_no_candidates (env : Env) (levelType levelPreset fileIndex : Int) (u : ℚ)
    (h : ∀ f ∈ (env.LevelPresets levelPreset).Files, f = "" ∨ f = "0") :
    (∀ stamp, LoadStamp env levelType levelPreset fileIndex u ≠ .ok stamp) ∧
    (∀ tiles, loadTiles env (env.LevelTypes levelType).Files [] = .ok tiles →
      LoadStamp env levelType levelPreset fileIndex u = .error .noLevelFiles) ∧
    (∀ e, loadTiles env (env.LevelTypes levelType).Files [] = .error e →
      LoadStamp env levelType levelPreset fileIndex u = .error e) := by
  have hnil : candidateFiles (env.LevelPresets levelPreset).Files = [] := by
    unfold candidateFiles
    rw [List.filter_eq_nil_iff]
    intro f hf
    rcases h f hf with h | h <;> simp [h]
  constructor
  · intro stamp hs
    obtain ⟨_, _, _, _, _, hne, _⟩ :=
      (LoadStamp_ok_iff env levelType levelPreset fileIndex u stamp).mp hs
    exact hne hnil
  constructor
  · intro tiles ht
    unfold LoadStamp
    simp only [ht, pickFiles_eq, List.nil_append, hnil, if_true]
  · intro e he
    unfold LoadStamp
    simp only [he]

/-- Claim C3 at a preset with the file entries `["", "0", ""]` whose tile file loads. -/
theorem LoadStamp_no_candidates_witness :
    LoadStamp emptyPresetEnv 7 0 0 (1 / 2) = .error .noLevelFiles :=
  (LoadStamp_no_candidates emptyPresetEnv 7 0 0 (1 / 2) (by decide)).2.1
    [⟨1, 2, 3, 0⟩, ⟨1, 2, 3, 1⟩] rfl

/-- Claim C3 as worded fails where the tile file of the level type does not load: the
preset has the file entries `["", "0", ""]`, line 40 panics with the load error before
line 62 is reached, and that is not the configuration error. -/
theorem LoadStamp_no_candidates_counterexample :
    (missingFilesEnv.LevelPresets 0).Files = ["", "0", ""] ∧
    (missingFilesEnv.LevelTypes 7).Files = ["", "floor.dt1", "0"] ∧
    missingFilesEnv.LoadFile "/data/global/tiles/floor.dt1" = .error "file not found" ∧
    LoadStamp missingFilesEnv 7 0 0 (1 / 2) = .error (.loadError "file not found") ∧
    LoadStamp missingFilesEnv 7 0 0 (1 / 2) ≠ .error .noLevelFiles := by
  have hload : LoadStamp missingFilesEnv 7 0 0 (1 / 2) =
      .error (.loadError "file not found") := rfl
  refine ⟨rfl, rfl, rfl, hload, ?_⟩
  rw [hload]
  simp

/-- Claim C10. For a draw `u` in `[0, 1)` and any `fileIndex`, the index used for a
candidate list of length `N ≥ 1` lies in `[0, N)`; so `LoadStamp` never ends with an
index out of range, and the `RegionPath()` of a returned stamp is a member of the
candidate list. -/
theorem levelIndex_in_range (env : Env) (levelType levelPreset fileIndex : Int) (u : ℚ)
    (hu0 : 0 ≤ u) (hu1 : u < 1) :
    (∀ N : Nat, 1 ≤ N →
      0 ≤ levelIndex N u fileIndex ∧ levelIndex N u fileIndex < (N : Int)) ∧
    (∀ candidates : List String, candidates ≠ [] →
      ∃ path, index candidates (levelIndex candidates.length u fileIndex) = some path ∧
        path ∈ candidates) ∧
    LoadStamp env levelType levelPreset fileIndex u ≠ .error .indexOutOfRange ∧
    (∀ stamp, LoadStamp env levelType levelPreset fileIndex u = .ok stamp →
      stamp.RegionPath ∈ candidateFiles (env.LevelPresets levelPreset).Files) := by
  have hsel : ∀ candidates : List String, candidates ≠ [] →
      ∃ path, index candidates (levelIndex candidates.length u fileIndex) = some path ∧
        path ∈ candidates := by
    intro candidates hne
    have hlen : 1 ≤ candidates.length := List.length_pos.mpr hne
    obtain ⟨hb0, hb1⟩ := levelIndex_bounds candidates.length hlen u hu0 hu1 fileIndex
    exact index_of_bounds candidates _ hb0 hb1
  refine ⟨fun N hN => levelIndex_bounds N hN u hu0 hu1 fileIndex, hsel, ?_, ?_⟩
  · unfold LoadStamp
    simp only [pickFiles_eq, List.nil_append]
    split
    · rename_i e he
      intro hcontra
      simp only [Except.error.injEq] at hcontra
      rw [hcontra] at he
      exact loadTiles_ne_indexOutOfRange _ _ _ he
    · split
      · simp
      · rename_i hne
        obtain ⟨path, hp, _⟩ := hsel _ hne
        simp only [hp]
        split
        · simp
        · split <;> simp
  · intro stamp hs
    obtain ⟨tiles, path, fileData, ds1, _, _, hp, _, _, rfl⟩ :=
      (LoadStamp_ok_iff env levelType levelPreset fileIndex u stamp).mp hs
    exact index_mem _ _ _ hp

/-- Claim C10 at three candidates, no explicit index and the draw 3/4: index 2. -/
theorem levelIndex_in_range_witness :
    0 ≤ levelIndex 3 (3 / 4) (-1) ∧ levelIndex 3 (3 / 4) (-1) < 3 :=
  (levelIndex_in_range exampleEnv 7 0 (-1) (3 / 4) (by norm_num) (by norm_num)).1 3
    (by decide)

/-- The draws that select index `k` among `n ≥ 1` candidates when no in-range explicit
index is given: the interval `[(2k - 1) / (2(n - 1)), (2k + 1) / (2(n - 1)))`, cut to
`[0, 1)`; it has half the length at `k = 0` and at `k = n - 1`. -/
theorem levelIndex_drawn_eq_iff (n : Nat) (hn : 1 ≤ n) (u : ℚ) (fileIndex k : Int)
    (hu0 : 0 ≤ u) (hfi : ¬ (0 ≤ fileIndex ∧ fileIndex < (n : Int))) :
    levelIndex n u fileIndex = k ↔
      2 * (k : ℚ) - 1 ≤ 2 * ((n : ℚ) - 1) * u ∧ 2 * ((n : ℚ) - 1) * u < 2 * (k : ℚ) + 1 := by
  have hn1 : (0 : ℚ) ≤ (n : ℚ) - 1 := by
    have : (1 : ℚ) ≤ (n : ℚ) := by exact_mod_cast hn
    linarith
  rw [levelIndex_drawn n u fileIndex hfi, mathRound_eq_iff _ (mul_nonneg hn1 hu0)]
  constructor
  · rintro ⟨h1, h2⟩; constructor <;> linarith
  · rintro ⟨h1, h2⟩; constructor <;> linarith

/-- Claim C2, evaluated at three candidates. Without an in-range explicit index, a draw
`u` in `[0, 1)` selects index 0 exactly on `[0, 1/4)`, index 1 exactly on `[1/4, 3/4)` and
index 2 exactly on `[3/4, 1)`: the middle candidate has mass 1/2, the first and the last
1/4 each. -/
theorem levelIndex_three_candidates (u : ℚ) (fileIndex : Int) (hu0 : 0 ≤ u) (hu1 : u < 1)
    (hfi : ¬ (0 ≤ fileIndex ∧ fileIndex < 3)) :
    (levelIndex 3 u fileIndex = 0 ↔ u < 1 / 4) ∧
    (levelIndex 3 u fileIndex = 1 ↔ 1 / 4 ≤ u ∧ u < 3 / 4) ∧
    (levelIndex 3 u fileIndex = 2 ↔ 3 / 4 ≤ u) := by
  have hx0 : (0 : ℚ) ≤ (((3 : Nat) : ℚ) - 1) * u := by
    push_cast; linarith
  rw [levelIndex_drawn 3 u fileIndex (by simpa using hfi)]
  rw [mathRound_eq_iff _ hx0, mathRound_eq_iff _ hx0, mathRound_eq_iff _ hx0]
  push_cast
  refine ⟨?_, ?_, ?_⟩
  · constructor
    · rintro ⟨_, h⟩; linarith
    · intro h; constructor <;> linarith
  · constructor
    · rintro ⟨h1, h2⟩; constructor <;> linarith
    · rintro ⟨h1, h2⟩; constructor <;> linarith
  · constructor
    · rintro ⟨h, _⟩; linarith
    · intro h; constructor <;> linarith

/-- Claim C2 at the draw 1/2 and the file index -1: the middle candidate is selected. -/
theorem levelIndex_three_candidates_witness : levelIndex 3 (1 / 2) (-1) = 1 :=
  (levelIndex_three_candidates (1 / 2) (-1) (by norm_num) (by norm_num) (by decide)).2.1.mpr
    ⟨by norm_num, by norm_num⟩

/-! ## Decoding -/

/-- Claim C9, evaluated where both decoders report an error next to a decoded value: the
errors are dropped and `LoadStamp` returns a stamp built from those values. -/
theorem LoadStamp_drops_decode_errors :
    (decodeErrorEnv.LoadFile "/data/global/tiles/floor.dt1" = .ok [28] ∧
      (decodeErrorEnv.LoadDT1 [28]).2 = some "dt1: unexpected end of data") ∧
    (decodeErrorEnv.LoadFile "/data/global/tiles/b.ds1" = .ok [24] ∧
      (decodeErrorEnv.LoadDS1 [24]).2 = some "ds1: unexpected end of data") ∧
    LoadStamp decodeErrorEnv 7 0 1 (1 / 3) =
      .ok { exampleStamp with tiles := [⟨1, 2, 3, 0⟩] } := by
  refine ⟨⟨rfl, rfl⟩, ⟨rfl, rfl⟩, rfl⟩

/-- When the layout decoder hands back a nil pointer, `LoadStamp` returns no stamp (the
nil dereference of line 76 ends the call). -/
theorem LoadStamp_nil_layout (env : Env) (levelType levelPreset fileIndex : Int) (u : ℚ)
    (h : ∀ fileData, (env.LoadDS1 fileData).1 = none) (stamp : Stamp) :
    LoadStamp env levelType levelPreset fileIndex u ≠ .ok stamp := by
  intro hs
  obtain ⟨_, _, fileData, ds1, _, _, _, _, hd, _⟩ :=
    (LoadStamp_ok_iff env levelType levelPreset fileIndex u stamp).mp hs
  rw [h fileData] at hd
  exact Option.noConfusion hd

/-! ## Tile lookup -/

theorem tileDataIn_eq_some_iff (style sequence tileType : Int) (tiles : List Tile)
    (tile : Tile) :
    tileDataIn style sequence tileType tiles = some tile ↔
      ∃ before after, tiles = before ++ tile :: after ∧
        keyMatches style sequence tileType tile ∧
        ∀ b ∈ before, ¬ keyMatches style sequence tileType b := by
  induction tiles with
  | nil => simp [tileDataIn]
  | cons t rest ih =>
    unfold tileDataIn
    by_cases hm : t.Style = style ∧ t.Sequence = sequence ∧ t.Typ = tileType
    · rw [if_pos hm]
      constructor
      · intro h
        simp only [Option.some.injEq] at h
        subst h
        exact ⟨[], rest, rfl, hm, by simp⟩
      · rintro ⟨before, after, heq, _, hb⟩
        cases before with
        | nil =>
          simp only [List.nil_append, List.cons.injEq] at heq
          rw [heq.1]
        | cons b bs =>
          simp only [List.cons_append, List.cons.injEq] at heq
          exact absurd (heq.1 ▸ hm) (hb b (List.mem_cons_self _ _))
    · rw [if_neg hm, ih]
      constructor
      · rintro ⟨before, after, heq, hk, hb⟩
        refine ⟨t :: before, after, by simp [heq], hk, ?_⟩
        intro b hbm
        rcases List.mem_cons.mp hbm with rfl | hbm
        · exact hm
        · exact hb b hbm
      · rintro ⟨before, after, heq, hk, hb⟩
        cases before with
        | nil =>
          simp only [List.nil_append, List.cons.injEq] at heq
          exact absurd (heq.1 ▸ hk) hm
        | cons b bs =>
          simp only [List.cons_append, List.cons.injEq] at heq
          exact ⟨bs, after, heq.2, hk, fun c hc => hb c (List.mem_cons_of_mem _ hc)⟩

theorem tileDataIn_eq_none_iff (style sequence tileType : Int) (tiles : List Tile) :
    tileDataIn style sequence tileType tiles = none ↔
      ∀ tile ∈ tiles, ¬ keyMatches style sequence tileType tile := by
  induction tiles with
  | nil => simp [tileDataIn]
  | cons t rest ih =>
    unfold tileDataIn
    by_cases hm : t.Style = style ∧ t.Sequence = sequence ∧ t.Typ = tileType
    · rw [if_pos hm]
      simp only [List.mem_cons, forall_eq_or_imp, false_iff, not_and, reduceCtorEq]
      intro h
      exact absurd hm h
    · rw [if_neg hm, ih]
      simp only [List.mem_cons, forall_eq_or_imp]
      exact ⟨fun h => ⟨hm, h⟩, fun h => h.2⟩

/-- Claim C4. For every tile collection and key, `TileData` returns a tile exactly when
that tile carries the key and no tile before it in the collection does (the first match
in collection order), and returns nil exactly when no tile of the collection carries the
key. -/
theorem TileData_first_match (mr : Stamp) (style sequence tileType : Int) :
    (∀ tile, mr.TileData style sequence tileType = some tile ↔
      ∃ before after, mr.tiles = before ++ tile :: after ∧
        keyMatches style sequence tileType tile ∧
        ∀ b ∈ before, ¬ keyMatches style sequence tileType b) ∧
    (mr.TileData style sequence tileType = none ↔
      ∀ tile ∈ mr.tiles, ¬ keyMatches style sequence tileType tile) :=
  ⟨fun tile => tileDataIn_eq_some_iff style sequence tileType mr.tiles tile,
    tileDataIn_eq_none_iff style sequence tileType mr.tiles⟩

theorem loadTiles_order (env : Env) (files : List String) (acc tiles : List Tile)
    (h : loadTiles env files acc = .ok tiles) :
    tiles = acc ++ (candidateFiles files).flatMap (decodedTiles env) := by
  induction files generalizing acc with
  | nil =>
    simp only [loadTiles, Except.ok.injEq] at h
    simp [candidateFiles, h]
  | cons f rest ih =>
    unfold loadTiles at h
    by_cases hu : usableFile f = true
    · have h2 := (usableFile_iff f).mp hu
      rw [if_pos hu] at h
      have hc : candidateFiles (f :: rest) = f :: candidateFiles rest := by
        simp [candidateFiles, List.filter_cons, h2]
      rw [hc, List.flatMap_cons]
      split at h
      · simp at h
      · rename_i fileData hf
        split at h
        · simp at h
        · rename_i dt1 hd
          have hdec : decodedTiles env f = dt1.Tiles := by
            unfold decodedTiles
            simp only [hf, hd]
          rw [ih _ h, hdec, List.append_assoc]
    · have h2 : ¬ (f ≠ "" ∧ f ≠ "0") := fun hh => hu ((usableFile_iff f).mpr hh)
      rw [if_neg hu] at h
      have hc : candidateFiles (f :: rest) = candidateFiles rest := by
        simp only [candidateFiles, List.filter_cons]
        simp [h2]
      rw [hc]
      exact ih _ h

/-- The tile collection of a loaded stamp is assembled in file-list order, then in-file
order (the order `TileData` scans). -/
theorem LoadStamp_tiles_order (env : Env) (levelType levelPreset fileIndex : Int) (u : ℚ)
    (stamp : Stamp) (h : LoadStamp env levelType levelPreset fileIndex u = .ok stamp) :
    stamp.tiles = (candidateFiles (env.LevelTypes levelType).Files).flatMap
      (decodedTiles env) := by
  obtain ⟨tiles, _, _, _, ht, _, _, _, _, rfl⟩ :=
    (LoadStamp_ok_iff env levelType levelPreset fileIndex u stamp).mp h
  simpa using loadTiles_order env _ [] tiles ht

/-! ## Region tags -/

theorem setRegionRow_eq_map (levelType : Int) (row : List TileRecord) :
    setRegionRow levelType row = row.map (fun t => { t with RegionType := levelType }) := by
  induction row with
  | nil => rfl
  | cons t row ih => simp [setRegionRow, ih]

theorem setRegionType_eq_map (levelType : Int) (rows : List (List TileRecord)) :
    setRegionType levelType rows =
      rows.map (List.map (fun t => { t with RegionType := levelType })) := by
  induction rows with
  | nil => rfl
  | cons row rows ih => simp [setRegionType, ih, setRegionRow_eq_map]

theorem index_map {α β : Type} (f : α → β) (xs : List α) (i : Int) :
    index (xs.map f) i = (index xs i).map f := by
  unfold index
  split
  · rfl
  · simp [List.get?_eq_getElem?]

/-- Claim C6. After a successful `LoadStamp(levelType, ...)` the grid of the stamp is the
decoded grid of the chosen layout with the same rows and cells (ragged rows included),
and for every cell of it `Tile(x, y)` returns that cell with `RegionType = levelType`,
whatever region type it was decoded with; every cell `Tile` returns carries
`levelType`. -/
theorem LoadStamp_region_type (env : Env) (levelType levelPreset fileIndex : Int) (u : ℚ)
    (stamp : Stamp) (h : LoadStamp env levelType levelPreset fileIndex u = .ok stamp) :
    (∃ fileData ds1,
      env.LoadFile ("/data/global/tiles/" ++ stamp.RegionPath) = .ok fileData ∧
      (env.LoadDS1 fileData).1 = some ds1 ∧
      ∀ (x y : Int) (row : List TileRecord) (cell : TileRecord),
        index ds1.Tiles y = some row → index row x = some cell →
        stamp.Tile x y = .ok { cell with RegionType := levelType }) ∧
    (∀ (x y : Int) (t : TileRecord), stamp.Tile x y = .ok t → t.RegionType = levelType) := by
  obtain ⟨tiles, path, fileData, ds1, _, _, _, hf, hd, rfl⟩ :=
    (LoadStamp_ok_iff env levelType levelPreset fileIndex u stamp).mp h
  constructor
  · refine ⟨fileData, ds1, hf, hd, ?_⟩
    intro x y row cell hrow hcell
    simp only [Stamp.Tile, setRegionType_eq_map, index_map, hrow, hcell, Option.map_some']
  · intro x y t ht
    simp only [Stamp.Tile, setRegionType_eq_map, index_map] at ht
    cases hrow : index ds1.Tiles y with
    | none => simp [hrow] at ht
    | some row =>
      cases hcell : index row x with
      | none => simp [hrow, hcell, index_map] at ht
      | some cell =>
        simp only [hrow, hcell, index_map, Option.map_some', Except.ok.injEq] at ht
        rw [← ht]

/-- Claim C6 at the example layout: the cell at column 1 of row 0 was decoded with region
type 8 and is returned with the requested level type 7. -/
theorem LoadStamp_region_type_witness :
    index exampleDS1.Tiles 0 = some [⟨0, 9⟩, ⟨1, 8⟩] ∧
    LoadStamp exampleEnv 7 0 1 (1 / 3) = .ok exampleStamp ∧
    exampleStamp.Tile 1 0 = .ok ⟨1, 7⟩ ∧ (⟨1, 7⟩ : TileRecord).RegionType = 7 :=
  ⟨rfl, rfl, rfl,
    (LoadStamp_region_type exampleEnv 7 0 1 (1 / 3) exampleStamp rfl).2 1 0 ⟨1, 7⟩ rfl⟩

/-! ## Entities -/

theorem entitiesLoop_acc (env : Env) (act ox oy : Int) (objects : List Object)
    (acc : List MapEntity) :
    entitiesLoop env act ox oy objects acc =
      match entitiesLoop env act ox oy objects [] with
      | .error e => .error e
      | .ok es => .ok (acc ++ es) := by
  induction objects generalizing acc with
  | nil => simp [entitiesLoop]
  | cons object rest ih =>
    unfold entitiesLoop
    cases entitiesOfObject env act ox oy object with
    | error e => rfl
    | ok appended =>
      simp only [List.nil_append]
      rw [ih (acc ++ appended), ih appended]
      cases entitiesLoop env act ox oy rest [] with
      | error e => rfl
      | ok es => simp

theorem entitiesLoop_cons (env : Env) (act ox oy : Int) (object : Object)
    (rest : List Object) :
    entitiesLoop env act ox oy (object :: rest) [] =
      match entitiesOfObject env act ox oy object with
      | .error e => .error e
      | .ok appended =>
        match entitiesLoop env act ox oy rest [] with
        | .error e => .error e
        | .ok es => .ok (appended ++ es) := by
  conv_lhs => unfold entitiesLoop
  cases entitiesOfObject env act ox oy object with
  | error e => rfl
  | ok appended =>
    simp only [List.nil_append]
    rw [entitiesLoop_acc]

theorem entitiesLoop_append (env : Env) (act ox oy : Int) (objs1 objs2 : List Object) :
    entitiesLoop env act ox oy (objs1 ++ objs2) [] =
      match entitiesLoop env act ox oy objs1 [] with
      | .error e => .error e
      | .ok es1 =>
        match entitiesLoop env act ox oy objs2 [] with
        | .error e => .error e
        | .ok es2 => .ok (es1 ++ es2) := by
  induction objs1 with
  | nil =>
    simp only [List.nil_append, entitiesLoop]
    cases entitiesLoop env act ox oy objs2 [] <;> rfl
  | cons object rest ih =>
    rw [List.cons_append, entitiesLoop_cons, entitiesLoop_cons, ih]
    cases entitiesOfObject env act ox oy object with
    | error e => rfl
    | ok appended =>
      cases entitiesLoop env act ox oy rest [] with
      | error e => rfl
      | ok es1 =>
        cases entitiesLoop env act ox oy objs2 [] with
        | error e => rfl
        | ok es2 => simp

theorem entitiesLoop_single (env : Env) (act ox oy : Int) (object : Object) :
    entitiesLoop env act ox oy [object] [] = entitiesOfObject env act ox oy object := by
  rw [entitiesLoop_cons]
  cases entitiesOfObject env act ox oy object with
  | error e => rfl
  | ok appended => simp [entitiesLoop]

theorem entitiesOfObject_miss (env : Env) (act ox oy : Int) (object : Object)
    (hm : lookupMiss env act object) :
    entitiesOfObject env act ox oy object = .ok [] := by
  have hci : ¬ ObjectTypeCharacter = ObjectTypeItem := by decide
  have hic : ¬ ObjectTypeItem = ObjectTypeCharacter := by decide
  unfold entitiesOfObject
  rcases hm with ⟨ht, hnone⟩ | ⟨ht, hl⟩
  · simp only [ht, hnone, hci, if_true, if_false]
  · rcases hl with hl | ⟨lookup, hl, ho⟩
    · rw [ht] at hl
      simp only [ht, hic, if_false, if_true, hl]
    · rw [ht] at hl
      simp only [ht, hic, if_false, if_true, hl, ho]

theorem entitiesLoop_mem (env : Env) (act ox oy : Int) (objects : List Object)
    (es : List MapEntity) (h : entitiesLoop env act ox oy objects [] = .ok es)
    (object : Object) (hobj : object ∈ objects) (appended : List MapEntity)
    (ha : entitiesOfObject env act ox oy object = .ok appended) (e : MapEntity)
    (he : e ∈ appended) : e ∈ es := by
  induction objects generalizing es with
  | nil => simp at hobj
  | cons o rest ih =>
    rw [entitiesLoop_cons] at h
    cases ho : entitiesOfObject env act ox oy o with
    | error err => simp [ho] at h
    | ok first =>
      cases hr : entitiesLoop env act ox oy rest [] with
      | error err => simp [ho, hr] at h
      | ok others =>
        simp only [ho, hr, Except.ok.injEq] at h
        subst h
        rcases List.mem_cons.mp hobj with heq | hmem
        · subst heq
          rw [ho] at ha
          simp only [Except.ok.injEq] at ha
          subst ha
          exact List.mem_append_left _ he
        · exact List.mem_append_right _ (ih others hr hmem)

theorem wrapInt_of_inIntRange (z : Int) (h : inIntRange z) : wrapInt z = z := by
  unfold inIntRange at h
  unfold wrapInt
  omega

theorem intAdd_intMul_of_inIntRange (offset coord : Int) (hm : inIntRange (offset * 5))
    (ha : inIntRange (offset * 5 + coord)) :
    intAdd (intMul offset 5) coord = offset * 5 + coord := by
  unfold intAdd intMul
  rw [wrapInt_of_inIntRange _ hm, wrapInt_of_inIntRange _ ha]

theorem intAdd_intMul_comm_of_inIntRange (offset coord : Int)
    (hm : inIntRange (offset * 5)) (ha : inIntRange (coord + offset * 5)) :
    intAdd coord (intMul offset 5) = coord + offset * 5 := by
  unfold intAdd intMul
  rw [wrapInt_of_inIntRange _ hm, wrapInt_of_inIntRange _ ha]

theorem convertPaths_eq_map (ox oy : Int) (paths : List Path) :
    convertPaths ox oy paths =
      paths.map (fun p => { Action := p.Action, X := intAdd p.X (intMul ox 5),
                            Y := intAdd p.Y (intMul oy 5) }) := by
  induction paths with
  | nil => rfl
  | cons p paths ih => simp [convertPaths, ih]

/-- Claim C5, as amended. In `Entities(ox, oy)` the coordinates are computed in Go `int`
arithmetic. A creature placement at local `(lx, ly)` whose preset has monster statistics
yields exactly the creature built at the `int` values of `(ox*5 + lx, oy*5 + ly)` with
the path `convertPaths(ox, oy, paths)`, an item placement that resolves to an object
record yields the object built there (or the error of the constructor), and whatever a
placement of the layout yields is part of the result of `Entities`. `convertPaths` keeps
length and order, keeps each `Action` and maps each `(x, y)` to the `int` values of
`(x + ox*5, y + oy*5)`. Whenever `offset*5` and `offset*5 + coordinate` lie in the `int`
range, these `int` values are the numbers `ox*5 + lx`, `oy*5 + ly`, `x + ox*5` and
`y + oy*5` themselves. -/
theorem Entities_global_coordinates (env : Env) (mr : Stamp) (ox oy : Int) :
    (∀ (object : Object) (monstat : MonStatsRecord),
      object.Typ = ObjectTypeCharacter →
      env.MonStats (env.MonPresets mr.ds1.Act object.Id) = some monstat →
      entitiesOfObject env mr.ds1.Act ox oy object =
        .ok [.npc (intAdd (intMul ox 5) object.X) (intAdd (intMul oy 5) object.Y) monstat 0
          (convertPaths ox oy object.Paths)]) ∧
    (∀ (object : Object) (lookup : ObjectLookupRecord) (record : ObjectRecord),
      object.Typ = ObjectTypeItem →
      env.LookupObject mr.ds1.Act object.Typ object.Id = some lookup →
      env.Objects lookup.ObjectsTxtId = some record →
      entitiesOfObject env mr.ds1.Act ox oy object =
        match env.CreateObjectErr (intAdd (intMul ox 5) object.X)
            (intAdd (intMul oy 5) object.Y) record env.PaletteUnits with
        | some err => .error (.createObjectError err)
        | none => .ok [.object (intAdd (intMul ox 5) object.X)
            (intAdd (intMul oy 5) object.Y) record env.PaletteUnits]) ∧
    (∀ es, mr.Entities env ox oy = .ok es →
      ∀ object ∈ mr.ds1.Objects, ∀ appended,
        entitiesOfObject env mr.ds1.Act ox oy object = .ok appended →
        ∀ e ∈ appended, e ∈ es) ∧
    (∀ paths : List Path,
      (convertPaths ox oy paths).length = paths.length ∧
      ∀ (i : Nat) (p : Path), paths.get? i = some p →
        (convertPaths ox oy paths).get? i =
          some { Action := p.Action, X := intAdd p.X (intMul ox 5),
                 Y := intAdd p.Y (intMul oy 5) }) ∧
    (∀ lx ly : Int, inIntRange (ox * 5) → inIntRange (oy * 5) →
      inIntRange (ox * 5 + lx) → inIntRange (oy * 5 + ly) →
      intAdd (intMul ox 5) lx = ox * 5 + lx ∧ intAdd (intMul oy 5) ly = oy * 5 + ly ∧
      ∀ (object : Object) (monstat : MonStatsRecord),
        object.X = lx → object.Y = ly → object.Typ = ObjectTypeCharacter →
        env.MonStats (env.MonPresets mr.ds1.Act object.Id) = some monstat →
        entitiesOfObject env mr.ds1.Act ox oy object =
          .ok [.npc (ox * 5 + lx) (oy * 5 + ly) monstat 0
            (convertPaths ox oy object.Paths)]) ∧
    (∀ lx ly : Int, inIntRange (ox * 5) → inIntRange (oy * 5) →
      inIntRange (ox * 5 + lx) → inIntRange (oy * 5 + ly) →
      ∀ (object : Object) (lookup : ObjectLookupRecord) (record : ObjectRecord),
        object.X = lx → object.Y = ly → object.Typ = ObjectTypeItem →
        env.LookupObject mr.ds1.Act object.Typ object.Id = some lookup →
        env.Objects lookup.ObjectsTxtId = some record →
        entitiesOfObject env mr.ds1.Act ox oy object =
          match env.CreateObjectErr (ox * 5 + lx) (oy * 5 + ly) record
              env.PaletteUnits with
          | some err => .error (.createObjectError err)
          | none => .ok [.object (ox * 5 + lx) (oy * 5 + ly) record env.PaletteUnits]) ∧
    (∀ (paths : List Path) (i : Nat) (p : Path), paths.get? i = some p →
      inIntRange (ox * 5) → inIntRange (oy * 5) →
      inIntRange (p.X + ox * 5) → inIntRange (p.Y + oy * 5) →
      (convertPaths ox oy paths).get? i =
        some { Action := p.Action, X := p.X + ox * 5, Y := p.Y + oy * 5 }) := by
  have hci : ¬ ObjectTypeCharacter = ObjectTypeItem := by decide
  have hic : ¬ ObjectTypeItem = ObjectTypeCharacter := by decide
  have hnpc : ∀ (object : Object) (monstat : MonStatsRecord),
      object.Typ = ObjectTypeCharacter →
      env.MonStats (env.MonPresets mr.ds1.Act object.Id) = some monstat →
      entitiesOfObject env mr.ds1.Act ox oy object =
        .ok [.npc (intAdd (intMul ox 5) object.X) (intAdd (intMul oy 5) object.Y) monstat 0
          (convertPaths ox oy object.Paths)] := by
    intro object monstat ht hm
    unfold entitiesOfObject
    simp only [ht, hm, hci, if_true, if_false]
  have hpath : ∀ (paths : List Path) (i : Nat) (p : Path), paths.get? i = some p →
      (convertPaths ox oy paths).get? i =
        some { Action := p.Action, X := intAdd p.X (intMul ox 5),
               Y := intAdd p.Y (intMul oy 5) } := by
    intro paths i p hp
    rw [convertPaths_eq_map]
    rw [List.get?_eq_getElem?] at hp ⊢
    rw [List.getElem?_map, hp]
    rfl
  have hitem : ∀ (object : Object) (lookup : ObjectLookupRecord) (record : ObjectRecord),
      object.Typ = ObjectTypeItem →
      env.LookupObject mr.ds1.Act object.Typ object.Id = some lookup →
      env.Objects lookup.ObjectsTxtId = some record →
      entitiesOfObject env mr.ds1.Act ox oy object =
        match env.CreateObjectErr (intAdd (intMul ox 5) object.X)
            (intAdd (intMul oy 5) object.Y) record env.PaletteUnits with
        | some err => .error (.createObjectError err)
        | none => .ok [.object (intAdd (intMul ox 5) object.X)
            (intAdd (intMul oy 5) object.Y) record env.PaletteUnits] := by
    intro object lookup record ht hl ho
    unfold entitiesOfObject CreateObject
    rw [ht] at hl
    simp only [ht, hic, if_true, if_false, hl, ho, List.nil_append]
    cases env.CreateObjectErr (intAdd (intMul ox 5) object.X)
      (intAdd (intMul oy 5) object.Y) record env.PaletteUnits <;> rfl
  refine ⟨hnpc, hitem, ?_, ?_, ?_, ?_, ?_⟩
  · intro es hes object hobj appended ha e he
    exact entitiesLoop_mem env mr.ds1.Act ox oy mr.ds1.Objects es hes object hobj appended
      ha e he
  · intro paths
    refine ⟨?_, hpath paths⟩
    rw [convertPaths_eq_map]
    exact List.length_map _ _
  · intro lx ly hmx hmy hax hay
    have hx := intAdd_intMul_of_inIntRange ox lx hmx hax
    have hy := intAdd_intMul_of_inIntRange oy ly hmy hay
    refine ⟨hx, hy, ?_⟩
    intro object monstat hox hoy ht hm
    rw [hnpc object monstat ht hm, hox, hoy, hx, hy]
  · intro lx ly hmx hmy hax hay object lookup record hox hoy ht hl ho
    rw [hitem object lookup record ht hl ho, hox, hoy,
      intAdd_intMul_of_inIntRange ox lx hmx hax, intAdd_intMul_of_inIntRange oy ly hmy hay]
  · intro paths i p hp hmx hmy hax hay
    rw [hpath paths i p hp, intAdd_intMul_comm_of_inIntRange ox p.X hmx hax,
      intAdd_intMul_comm_of_inIntRange oy p.Y hmy hay]

/-- Claim C5 at the example of the specification: stamp offset (2, 4) and a creature
placement at local (1, 1) give a creature at (11, 21), its waypoint (3, 4) moved to
(13, 24); the whole example stamp yields that creature and the item at (12, 20). -/
theorem Entities_global_coordinates_witness :
    entitiesOfObject exampleEnv 1 2 4 ⟨1, 5, 1, 1, [⟨3, 4, 7⟩]⟩ =
      .ok [.npc (2 * 5 + 1) (4 * 5 + 1) ⟨1⟩ 0 (convertPaths 2 4 [⟨3, 4, 7⟩])] ∧
    convertPaths 2 4 [⟨3, 4, 7⟩] = [⟨13, 24, 7⟩] ∧
    exampleStamp.Entities exampleEnv 2 4 =
      .ok [.npc 11 21 ⟨1⟩ 0 [⟨13, 24, 7⟩], .object 12 20 ⟨2⟩ "units"] :=
  ⟨((Entities_global_coordinates exampleEnv exampleStamp 2 4).2.2.2.2.1 1 1
      (by simp [inIntRange]) (by simp [inIntRange]) (by simp [inIntRange])
      (by simp [inIntRange])).2.2 ⟨1, 5, 1, 1, [⟨3, 4, 7⟩]⟩ ⟨1⟩ rfl rfl rfl rfl, rfl, rfl⟩

/-- Claim C5 as worded fails where the `int` product overflows: at the stamp offset
`(2^62, 0)` the creature placed at local (1, 1) is built at `x = 4611686018427387905`
(the wrapped value of `2^62 * 5 + 1`), not at `2^62 * 5 + 1 = 23058430092136939521`. -/
theorem Entities_global_coordinates_counterexample :
    inIntRange 4611686018427387904 ∧
    (exampleStamp.withObjects [⟨1, 5, 1, 1, []⟩]).Entities exampleEnv 4611686018427387904 0 =
      .ok [.npc 4611686018427387905 1 ⟨1⟩ 0 []] ∧
    (exampleStamp.withObjects [⟨1, 5, 1, 1, []⟩]).Entities exampleEnv 4611686018427387904 0 ≠
      .ok [.npc (4611686018427387904 * 5 + 1) (0 * 5 + 1) ⟨1⟩ 0 []] := by
  have hbuilt : (exampleStamp.withObjects [⟨1, 5, 1, 1, []⟩]).Entities exampleEnv
      4611686018427387904 0 = .ok [.npc 4611686018427387905 1 ⟨1⟩ 0 []] := rfl
  refine ⟨by simp [inIntRange], hbuilt, ?_⟩
  rw [hbuilt]
  simp

/-- Claim C7. A placement that misses its definition (a creature without monster
statistics, an item without lookup entry or without object record) yields no entity and
no failure, and `Entities` of a layout containing it equals `Entities` of the same layout
with that placement removed: the placements after it are processed as before. -/
theorem Entities_lookup_miss (env : Env) (mr : Stamp) (ox oy : Int)
    (before after : List Object) (object : Object)
    (hm : lookupMiss env mr.ds1.Act object) :
    (mr.withObjects [object]).Entities env ox oy = .ok [] ∧
    (mr.withObjects (before ++ object :: after)).Entities env ox oy =
      (mr.withObjects (before ++ after)).Entities env ox oy := by
  have hmiss := entitiesOfObject_miss env mr.ds1.Act ox oy object hm
  constructor
  · simp only [Stamp.Entities, Stamp.withObjects]
    rw [entitiesLoop_single, hmiss]
  · simp only [Stamp.Entities, Stamp.withObjects]
    rw [entitiesLoop_append, entitiesLoop_append, entitiesLoop_cons, hmiss]
    cases entitiesLoop env mr.ds1.Act ox oy before [] with
    | error e => rfl
    | ok es1 =>
      cases entitiesLoop env mr.ds1.Act ox oy after [] with
      | error e => rfl
      | ok es2 => simp

/-- Claim C7 at the example environment: the creature with id 9 has no monster
statistics; with it between the creature at (1, 1) and the item at (2, 0) the result is
that of the two resolvable placements. -/
theorem Entities_lookup_miss_witness :
    (exampleStamp.withObjects
        [⟨1, 5, 1, 1, [⟨3, 4, 7⟩]⟩, ⟨1, 9, 0, 0, []⟩, ⟨2, 6, 2, 0, []⟩]).Entities
      exampleEnv 2 4 =
    (exampleStamp.withObjects [⟨1, 5, 1, 1, [⟨3, 4, 7⟩]⟩, ⟨2, 6, 2, 0, []⟩]).Entities
      exampleEnv 2 4 :=
  (Entities_lookup_miss exampleEnv exampleStamp 2 4 [⟨1, 5, 1, 1, [⟨3, 4, 7⟩]⟩]
    [⟨2, 6, 2, 0, []⟩] ⟨1, 9, 0, 0, []⟩ (Or.inl ⟨rfl, rfl⟩)).2

/-- Claim C8. `Entities` follows the declaration order without reordering or
deduplication: a placement contributes no or one entity, a placement that is neither a
creature nor an item contributes none, `Entities` of a one-placement layout is that
contribution, and for every split `objs1 ++ objs2` of the object list the result is the
entities of `objs1` followed by the entities of `objs2` (the first failure, if any, in
that order). -/
theorem Entities_declaration_order (env : Env) (mr : Stamp) (ox oy : Int) :
    (∀ (object : Object) (appended : List MapEntity),
      entitiesOfObject env mr.ds1.Act ox oy object = .ok appended → appended.length ≤ 1) ∧
    (∀ object : Object, object.Typ ≠ ObjectTypeCharacter → object.Typ ≠ ObjectTypeItem →
      entitiesOfObject env mr.ds1.Act ox oy object = .ok []) ∧
    (∀ object : Object, (mr.withObjects [object]).Entities env ox oy =
      entitiesOfObject env mr.ds1.Act ox oy object) ∧
    (∀ objs1 objs2 : List Object,
      (mr.withObjects (objs1 ++ objs2)).Entities env ox oy =
        match (mr.withObjects objs1).Entities env ox oy with
        | .error e => .error e
        | .ok es1 =>
          match (mr.withObjects objs2).Entities env ox oy with
          | .error e => .error e
          | .ok es2 => .ok (es1 ++ es2)) := by
  have hci : ¬ ObjectTypeCharacter = ObjectTypeItem := by decide
  have hic : ¬ ObjectTypeItem = ObjectTypeCharacter := by decide
  refine ⟨?_, ?_, ?_, ?_⟩
  · intro object appended h
    unfold entitiesOfObject at h
    by_cases hc : object.Typ = ObjectTypeCharacter
    · simp only [hc, hci, if_true, if_false, Except.ok.injEq] at h
      rw [← h]
      split <;> simp
    · by_cases hi : object.Typ = ObjectTypeItem
      · simp only [hi, hic, if_true, if_false] at h
        split at h
        · simp only [Except.ok.injEq] at h
          simp [← h]
        · split at h
          · simp only [Except.ok.injEq] at h
            simp [← h]
          · split at h
            · simp at h
            · simp only [Except.ok.injEq] at h
              simp [← h]
      · simp only [hc, hi, if_false, Except.ok.injEq] at h
        simp [← h]
  · intro object hc hi
    unfold entitiesOfObject
    simp only [hc, hi, if_false]
  · intro object
    simp only [Stamp.Entities, Stamp.withObjects]
    exact entitiesLoop_single env mr.ds1.Act ox oy object
  · intro objs1 objs2
    simp only [Stamp.Entities, Stamp.withObjects]
    exact entitiesLoop_append env mr.ds1.Act ox oy objs1 objs2

/-- Two identical resolvable placements yield two entities, in list order. -/
theorem Entities_duplicates :
    (exampleStamp.withObjects [⟨1, 5, 1, 1, []⟩, ⟨1, 5, 1, 1, []⟩]).Entities exampleEnv 0 0 =
      .ok [.npc 1 1 ⟨1⟩ 0 [], .npc 1 1 ⟨1⟩ 0 []] := rfl

/-- Without constructor errors `Entities` returns a result for every layout. -/
theorem Entities_total (env : Env) (mr : Stamp) (ox oy : Int)
    (hc : ∀ x y record palette, env.CreateObjectErr x y record palette = none) :
    ∃ es, mr.Entities env ox oy = .ok es := by
  have hobj : ∀ object, ∃ appended,
      entitiesOfObject env mr.ds1.Act ox oy object = .ok appended := by
    intro object
    unfold entitiesOfObject CreateObject
    simp only [hc]
    split
    · split
      · exact ⟨_, rfl⟩
      · split <;> exact ⟨_, rfl⟩
    · exact ⟨_, rfl⟩
  unfold Stamp.Entities
  induction mr.ds1.Objects with
  | nil => exact ⟨[], rfl⟩
  | cons object rest ih =>
    obtain ⟨appended, ha⟩ := hobj object
    obtain ⟨es, hes⟩ := ih
    rw [entitiesLoop_cons, ha, hes]
    exact ⟨_, rfl⟩

end D2MapStamp
